import Mathlib

/-!
Shallow embedding of the ppixel rendering pipeline (image_cli.py):
color quantization (RGBUtils.round_channel, RGBUtils.round_rgb), the ANSI
encoder with its process-wide color cache (RGBUtils.to_ansi, RGBUtils.CACHE),
resize normalization (ResizeImage.resize_in_proportion,
ResizeImage._normalize_resize) and the renderer
(ImagePrinter.from_image_file).

Python integers are modelled as Int, Python floats as exact
mantissa/exponent pairs over Int with results rounded to 53-bit
significands (IEEE-754 binary64, round to nearest, ties to even; overflow
and subnormals are outside the ranges exercised here).
Python exceptions are modelled with Except. The lru_cache decorators on
round_channel and round_rgb memoize pure functions and are semantically
transparent, so they are not modelled. The global dict RGBUtils.CACHE is
modelled as an association list threaded through the functions that read
and write it.
-/

namespace PPixel

/-- Python exceptions raised by the embedded code. -/
inductive PyErr where
  | valueError
  | zeroDivisionError
deriving DecidableEq

/-- An RGB triple as handed around by image_cli.py (Python ints). -/
abbrev RGBColor := ℤ × ℤ × ℤ

/-- The state of the dict RGBUtils.CACHE: insertion-ordered key/value pairs. -/
abbrev Cache := List (RGBColor × String)

/-- Lookup in the modelled dict: CACHE[rgb] / rgb in CACHE. -/
def cacheGet : Cache → RGBColor → Option String
  | [], _ => none
  | (k2, v2) :: rest, k => if k2 = k then some v2 else cacheGet rest k

/-- Assignment in the modelled dict: CACHE[rgb] = ansi. -/
def cacheSet : Cache → RGBColor → String → Cache
  | [], k, v => [(k, v)]
  | (k2, v2) :: rest, k, v =>
    if k2 = k then (k, v) :: rest else (k2, v2) :: cacheSet rest k v

/-- RGBUtils.round_channel: channel // step * step. Python raises
ZeroDivisionError when step is 0; Python floor division is Int.fdiv. -/
def round_channel (channel step : ℤ) : Except PyErr ℤ :=
  if step = 0 then .error .zeroDivisionError
  else .ok (channel.fdiv step * step)

/-- RGBUtils.round_rgb: rejects only step < 0 with ValueError (the message
says step must be greater than 0, but the guard is strict less-than), then
rounds the three channels; a step of 0 therefore reaches round_channel and
raises ZeroDivisionError there. -/
def round_rgb (rgb : RGBColor) (step : ℤ) : Except PyErr RGBColor :=
  if step < 0 then .error .valueError
  else
    match round_channel rgb.1 step, round_channel rgb.2.1 step,
        round_channel rgb.2.2 step with
    | .ok r, .ok g, .ok b => .ok (r, g, b)
    | .error e, _, _ => .error e
    | .ok _, .error e, _ => .error e
    | .ok _, .ok _, .error e => .error e

/-- The f-string in RGBUtils.to_ansi: ESC[48;2; then the three decimal
channel values separated by semicolons, then m, then the text. -/
def ansiFormat (r g b : ℤ) (text : String) : String :=
  "\x1b[48;2;" ++ toString r ++ ";" ++ toString g ++ ";" ++ toString b
    ++ "m" ++ text

/-- RGBUtils.to_ansi with the global CACHE passed in and the updated cache
returned. Mirrors the source line by line: alpha substitution on an exactly
(0,0,0) input when alpha_replacer is given, then the cache lookup keyed on
that (pre-quantization) color, then optional quantization, formatting, and
the cache store keyed on the same pre-quantization color. -/
def toAnsi (text : String) (rgb : RGBColor) (alpha_replacer : Option RGBColor)
    (use_cache : Bool) (round_step : Option ℤ) (cache : Cache) :
    Except PyErr (String × Cache) :=
  let rgb2 := match alpha_replacer with
    | some rep => if rgb = (0, 0, 0) then rep else rgb
    | none => rgb
  match (if use_cache then cacheGet cache rgb2 else none) with
  | some s => .ok (s, cache)
  | none =>
    match (match round_step with
      | none => Except.ok rgb2
      | some st => round_rgb rgb2 st) with
    | .error e => .error e
    | .ok (r, g, b) =>
      let ansi := ansiFormat r g b text
      .ok (ansi, if use_cache then cacheSet cache rgb2 ansi else cache)

/-- The cell text computed in ImagePrinter.from_image_file for row i,
column j: two spaces by default, or the decimal value of (i+1)*j followed
by one space when show_pixel_index is true. -/
def cellText (show_pixel_index : Bool) (i j : ℕ) : String :=
  if show_pixel_index then toString ((i + 1) * j) ++ " " else "  "

/-- One row of the loop in ImagePrinter.from_image_file: each pixel is
encoded through RGBUtils.to_ansi (alpha_replacer left at its default None,
use_cache left at its default True), threading the global cache. -/
def renderRow (i j : ℕ) (row : List RGBColor) (show_pixel_index : Bool)
    (round_step : Option ℤ) (cache : Cache) : Except PyErr (String × Cache) :=
  match row with
  | [] => .ok ("", cache)
  | px :: rest =>
    match toAnsi (cellText show_pixel_index i j) px none true round_step cache with
    | .error e => .error e
    | .ok (s, cache2) =>
      match renderRow i (j + 1) rest show_pixel_index round_step cache2 with
      | .error e => .error e
      | .ok (srest, cache3) => .ok (s ++ srest, cache3)

/-- The outer loop of ImagePrinter.from_image_file: after every row a
single reset sequence ESC[0m plus a newline is appended. -/
def renderRows (i : ℕ) (rows : List (List RGBColor)) (show_pixel_index : Bool)
    (round_step : Option ℤ) (cache : Cache) : Except PyErr (String × Cache) :=
  match rows with
  | [] => .ok ("", cache)
  | row :: rest =>
    match renderRow i 0 row show_pixel_index round_step cache with
    | .error e => .error e
    | .ok (s, cache2) =>
      match renderRows (i + 1) rest show_pixel_index round_step cache2 with
      | .error e => .error e
      | .ok (srest, cache3) => .ok (s ++ "\x1b[0m\n" ++ srest, cache3)

/-- ImagePrinter.from_image_file on an already extracted pixel grid
(row-major list of RGB rows), with the class attribute RGB_ROUND_STEP
passed as round_step and the global cache threaded explicitly. -/
def from_image_file (pixels : List (List RGBColor)) (show_pixel_index : Bool)
    (round_step : Option ℤ) (cache : Cache) : Except PyErr (String × Cache) :=
  renderRows 0 pixels show_pixel_index round_step cache

/-- Comparison variant of renderRow with the alpha_replacer argument of
RGBUtils.to_ansi exposed instead of left at its default. -/
def renderRowR (alpha_replacer : Option RGBColor) (i j : ℕ)
    (row : List RGBColor) (show_pixel_index : Bool) (round_step : Option ℤ)
    (cache : Cache) : Except PyErr (String × Cache) :=
  match row with
  | [] => .ok ("", cache)
  | px :: rest =>
    match toAnsi (cellText show_pixel_index i j) px alpha_replacer true
        round_step cache with
    | .error e => .error e
    | .ok (s, cache2) =>
      match renderRowR alpha_replacer i (j + 1) rest show_pixel_index
          round_step cache2 with
      | .error e => .error e
      | .ok (srest, cache3) => .ok (s ++ srest, cache3)

/-- Comparison variant of renderRows with alpha_replacer exposed. -/
def renderRowsR (alpha_replacer : Option RGBColor) (i : ℕ)
    (rows : List (List RGBColor)) (show_pixel_index : Bool)
    (round_step : Option ℤ) (cache : Cache) : Except PyErr (String × Cache) :=
  match rows with
  | [] => .ok ("", cache)
  | row :: rest =>
    match renderRowR alpha_replacer i 0 row show_pixel_index round_step cache with
    | .error e => .error e
    | .ok (s, cache2) =>
      match renderRowsR alpha_replacer (i + 1) rest show_pixel_index
          round_step cache2 with
      | .error e => .error e
      | .ok (srest, cache3) => .ok (s ++ "\x1b[0m\n" ++ srest, cache3)

/-- Comparison variant of from_image_file with alpha_replacer exposed. -/
def fromImageFileR (alpha_replacer : Option RGBColor)
    (pixels : List (List RGBColor)) (show_pixel_index : Bool)
    (round_step : Option ℤ) (cache : Cache) : Except PyErr (String × Cache) :=
  renderRowsR alpha_replacer 0 pixels show_pixel_index round_step cache

/-- Left to right concatenation of a list of strings. -/
def concatStrings (l : List String) : String :=
  l.foldr (fun a b => a ++ b) ""

/-- The list of per-cell fragments produced along one row, in order, with
the cache threaded exactly as in renderRow. -/
def rowFragments (i j : ℕ) (row : List RGBColor) (show_pixel_index : Bool)
    (round_step : Option ℤ) (cache : Cache) :
    Except PyErr (List String × Cache) :=
  match row with
  | [] => .ok ([], cache)
  | px :: rest =>
    match toAnsi (cellText show_pixel_index i j) px none true round_step cache with
    | .error e => .error e
    | .ok (s, cache2) =>
      match rowFragments i (j + 1) rest show_pixel_index round_step cache2 with
      | .error e => .error e
      | .ok (ss, cache3) => .ok (s :: ss, cache3)

/-- The row-major list of per-cell fragment lists, one inner list per
image row, with the cache threaded exactly as in renderRows. -/
def gridFragments (i : ℕ) (rows : List (List RGBColor))
    (show_pixel_index : Bool) (round_step : Option ℤ) (cache : Cache) :
    Except PyErr (List (List String) × Cache) :=
  match rows with
  | [] => .ok ([], cache)
  | row :: rest =>
    match rowFragments i 0 row show_pixel_index round_step cache with
    | .error e => .error e
    | .ok (ss, cache2) =>
      match gridFragments (i + 1) rest show_pixel_index round_step cache2 with
      | .error e => .error e
      | .ok (rows2, cache3) => .ok (ss :: rows2, cache3)

/-- Assembly described by the spec: concatenate the cells of each row,
terminate every row with one reset sequence plus a newline, and
concatenate the rows in order. -/
def assembleRows (rows : List (List String)) : String :=
  concatStrings (rows.map (fun row => concatStrings row ++ "\x1b[0m\n"))


/-- Number of binary digits of a natural number, with explicit fuel so
that the kernel evaluates it by structural recursion; 128 bits of fuel
covers every value occurring here. -/
def bitLenAux : ℕ → ℕ → ℕ
  | 0, _ => 0
  | fuel + 1, n => if n = 0 then 0 else bitLenAux fuel (n / 2) + 1

/-- Bit length of a natural number. -/
def bitLen (n : ℕ) : ℕ := bitLenAux 128 n

/-- Power of two as an integer, by structural recursion so that the
kernel evaluates it. -/
def pow2Int : ℕ → ℤ
  | 0 => 1
  | n + 1 => 2 * pow2Int n

/-- Round the fraction p/q (q positive) to the nearest integer, ties to
even. -/
def roundRatHalfEven (p q : ℤ) : ℤ :=
  let n := p.fdiv q
  let r := p - n * q
  if 2 * r < q then n
  else if q < 2 * r then n + 1
  else if n % 2 = 0 then n else n + 1

/-- Floor of the base two logarithm of a positive fraction a/b: the bit
lengths of a and b bound it within two candidates, decided by one
comparison. -/
def floorLog2Q (a b : ℤ) : ℤ :=
  let d : ℤ := (bitLen a.natAbs : ℤ) - (bitLen b.natAbs : ℤ)
  if (if 0 ≤ d then a < b * pow2Int d.toNat else a * pow2Int (-d).toNat < b)
  then d - 1 else d

/-- A binary64 value represented exactly as a mantissa/exponent pair
(m, ex) denoting m * 2 ^ ex. -/
abbrev F64 := ℤ × ℤ

/-- Correctly rounded binary64 division of two positive integers (Python
int / int): round a/b to a 53-bit significand, nearest, ties to even.
Values here stay far inside the normal range, so overflow and subnormals
do not arise. -/
def f64Div (a b : ℤ) : F64 :=
  let e := floorLog2Q a b
  let m :=
    if 0 ≤ 52 - e then roundRatHalfEven (a * pow2Int (52 - e).toNat) b
    else roundRatHalfEven a (b * pow2Int (e - 52).toNat)
  if m = pow2Int 53 then (pow2Int 52, e - 51) else (m, e - 52)

/-- Binary64 multiplication of a float by an exactly representable
integer (Python float * int): the exact product rounded to a 53-bit
significand, nearest, ties to even. -/
def f64MulInt (f : F64) (k : ℤ) : F64 :=
  let p := f.1 * k
  if p = 0 then (0, 0)
  else
    let sh := (bitLen p.natAbs : ℤ) - 53
    if sh ≤ 0 then (p, f.2)
    else
      let m := roundRatHalfEven p (pow2Int sh.toNat)
      if (bitLen m.natAbs : ℤ) = 54 then (m.fdiv 2, f.2 + sh + 1)
      else (m, f.2 + sh)

/-- Python int() applied to a float: truncation toward zero. -/
def f64Trunc (f : F64) : ℤ :=
  if 0 ≤ f.2 then f.1 * pow2Int f.2.toNat
  else
    let d := pow2Int (-f.2).toNat
    if 0 ≤ f.1 then f.1.fdiv d else -((-f.1).fdiv d)

/-- ResizeImage.resize_in_proportion: requires exactly one of new_width
and new_height to be set, else raises ValueError; computes
fator = target / source_axis with float division and returns
(int(fator * w), int(h * fator)) with float multiplication. A zero source
dimension on the chosen axis raises ZeroDivisionError in Python. -/
def resize_in_proportion (size : ℤ × ℤ) (new_width new_height : Option ℤ) :
    Except PyErr (ℤ × ℤ) :=
  match new_width, new_height with
  | some nw, none =>
    if size.1 = 0 then .error .zeroDivisionError
    else
      let fator := f64Div nw size.1
      .ok (f64Trunc (f64MulInt fator size.1), f64Trunc (f64MulInt fator size.2))
  | none, some nh =>
    if size.2 = 0 then .error .zeroDivisionError
    else
      let fator := f64Div nh size.2
      .ok (f64Trunc (f64MulInt fator size.1), f64Trunc (f64MulInt fator size.2))
  | _, _ => .error .valueError

/-- Python x or y on an optional int and a default: None and 0 are both
falsy and fall back to the default. -/
def pyOr (v : Option ℤ) (d : ℤ) : ℤ :=
  match v with
  | none => d
  | some x => if x = 0 then d else x

/-- ResizeImage._normalize_resize: a None resize argument means the source
size; an explicit pair with at least one unset component under
maintain_proportion delegates to resize_in_proportion; otherwise unset or
zero components fall back to the source size through Python or. -/
def normalize_resize (image_size : ℤ × ℤ)
    (resize : Option (Option ℤ × Option ℤ)) (maintain_proportion : Bool) :
    Except PyErr (ℤ × ℤ) :=
  match resize with
  | none => .ok image_size
  | some (w, h) =>
    if maintain_proportion && (w.isNone || h.isNone) then
      resize_in_proportion image_size w h
    else
      .ok (pyOr w image_size.1, pyOr h image_size.2)

/-- Storing then looking up the same dict key retrieves the stored value. -/
theorem cacheGet_cacheSet_self (cache : Cache) (k : RGBColor) (v : String) :
    cacheGet (cacheSet cache k v) k = some v := by
  induction cache with
  | nil => simp [cacheGet, cacheSet]
  | cons head rest ih =>
    obtain ⟨k2, v2⟩ := head
    by_cases h : k2 = k
    · simp [cacheGet, cacheSet, h]
    · simp [cacheGet, cacheSet, h, ih]



/-- The replacer comparison variant with alpha_replacer None coincides
with renderRow. -/
theorem renderRowR_none (i : ℕ) (row : List RGBColor) (sp : Bool)
    (step : Option ℤ) : ∀ (j : ℕ) (cache : Cache),
    renderRowR none i j row sp step cache = renderRow i j row sp step cache := by
  induction row with
  | nil =>
    intro j cache
    rfl
  | cons px rest ih =>
    intro j cache
    simp only [renderRowR, renderRow]
    cases toAnsi (cellText sp i j) px none true step cache with
    | error e => rfl
    | ok p =>
      obtain ⟨s, cache2⟩ := p
      simp only
      rw [ih]

/-- The replacer comparison variant with alpha_replacer None coincides
with renderRows. -/
theorem renderRowsR_none (rows : List (List RGBColor)) (sp : Bool)
    (step : Option ℤ) : ∀ (i : ℕ) (cache : Cache),
    renderRowsR none i rows sp step cache = renderRows i rows sp step cache := by
  induction rows with
  | nil =>
    intro i cache
    rfl
  | cons row rest ih =>
    intro i cache
    simp only [renderRowsR, renderRows, renderRowR_none]
    cases renderRow i 0 row sp step cache with
    | error e => rfl
    | ok p =>
      obtain ⟨s, cache2⟩ := p
      simp only
      rw [ih]

/-- renderRow produces exactly the concatenation of the per-cell
fragments collected by rowFragments. -/
theorem renderRow_eq_fragments (i : ℕ) (row : List RGBColor) (sp : Bool)
    (step : Option ℤ) : ∀ (j : ℕ) (cache : Cache),
    renderRow i j row sp step cache =
      (rowFragments i j row sp step cache).map
        (fun p => (concatStrings p.1, p.2)) := by
  induction row with
  | nil =>
    intro j cache
    rfl
  | cons px rest ih =>
    intro j cache
    simp only [renderRow, rowFragments]
    cases toAnsi (cellText sp i j) px none true step cache with
    | error e => rfl
    | ok p =>
      obtain ⟨s, cache2⟩ := p
      simp only
      rw [ih]
      cases rowFragments i (j + 1) rest sp step cache2 with
      | error e => rfl
      | ok q =>
        obtain ⟨ss, cache3⟩ := q
        simp [Except.map, concatStrings]

/-- renderRows produces exactly the assembly of the row-major fragment
lists collected by gridFragments. -/
theorem renderRows_eq_fragments (rows : List (List RGBColor)) (sp : Bool)
    (step : Option ℤ) : ∀ (i : ℕ) (cache : Cache),
    renderRows i rows sp step cache =
      (gridFragments i rows sp step cache).map
        (fun p => (assembleRows p.1, p.2)) := by
  induction rows with
  | nil =>
    intro i cache
    rfl
  | cons row rest ih =>
    intro i cache
    simp only [renderRows, gridFragments, renderRow_eq_fragments]
    cases rowFragments i 0 row sp step cache with
    | error e => rfl
    | ok p =>
      obtain ⟨ss, cache2⟩ := p
      simp only [Except.map]
      rw [ih]
      cases gridFragments (i + 1) rest sp step cache2 with
      | error e => rfl
      | ok q =>
        obtain ⟨rows2, cache3⟩ := q
        simp [Except.map, assembleRows, concatStrings, String.append_assoc]

/-- Claim C4: with an explicit step of 0, round_rgb passes its strict
step < 0 guard and raises ZeroDivisionError from channel // 0 instead of
the ValueError its own message announces; a negative step does raise
ValueError; an omitted round_step leaves the color unchanged in to_ansi. -/
theorem round_rgb_step_zero_division :
    round_rgb (10, 20, 30) 0 = .error .zeroDivisionError ∧
    round_rgb (10, 20, 30) (-4) = .error .valueError ∧
    (toAnsi ("x") (10, 20, 30) none false none []).map Prod.fst =
      .ok ("\x1b[48;2;10;20;30mx") :=
  ⟨rfl, rfl, rfl⟩

/-- Claim C6: for a positive step, round_rgb succeeds, each quantized
channel is at most the original channel and a multiple of the step, and
quantization is idempotent. -/
theorem quantize_le_dvd_idem (s : ℤ) (hs : 0 < s) (r g b : ℤ) :
    ∃ r2 g2 b2, round_rgb (r, g, b) s = .ok (r2, g2, b2) ∧
      r2 ≤ r ∧ g2 ≤ g ∧ b2 ≤ b ∧ s ∣ r2 ∧ s ∣ g2 ∧ s ∣ b2 ∧
      round_rgb (r2, g2, b2) s = .ok (r2, g2, b2) := by
  have hs0 : s ≠ 0 := ne_of_gt hs
  have hsneg : ¬ s < 0 := not_lt.mpr (le_of_lt hs)
  have key : ∀ c : ℤ, c.fdiv s * s ≤ c := fun c => by
    rw [Int.fdiv_eq_ediv _ (le_of_lt hs)]
    exact Int.ediv_mul_le c hs0
  have idem : ∀ c : ℤ, (c.fdiv s * s).fdiv s * s = c.fdiv s * s := fun c => by
    rw [Int.mul_fdiv_cancel _ hs0]
  refine ⟨r.fdiv s * s, g.fdiv s * s, b.fdiv s * s, ?_, key r, key g, key b,
    dvd_mul_left s (r.fdiv s), dvd_mul_left s (g.fdiv s),
    dvd_mul_left s (b.fdiv s), ?_⟩
  · simp [round_rgb, round_channel, hs0, hsneg]
  · simp [round_rgb, round_channel, hs0, hsneg, idem]

/-- Witness for the C6 theorem at step 4 and color (10, 20, 30). -/
theorem quantize_le_dvd_idem_witness :
    ∃ r2 g2 b2, round_rgb (10, 20, 30) 4 = .ok (r2, g2, b2) ∧
      r2 ≤ 10 ∧ g2 ≤ 20 ∧ b2 ≤ 30 ∧
      (4 : ℤ) ∣ r2 ∧ (4 : ℤ) ∣ g2 ∧ (4 : ℤ) ∣ b2 ∧
      round_rgb (r2, g2, b2) 4 = .ok (r2, g2, b2) :=
  quantize_le_dvd_idem 4 (by decide) 10 20 30

/-- Claim C1 refuted at a concrete input: calling to_ansi with color
(5, 5, 5), use_cache true and round_step 4 stores the fragment under the
pre-quantization key (5, 5, 5); the post-quantization color (4, 4, 4) is
not a key of the resulting cache. -/
theorem cache_key_postquant_cex :
    toAnsi ("  ") (5, 5, 5) none true (some 4) [] =
      .ok ("\x1b[48;2;4;4;4m  ", [((5, 5, 5), "\x1b[48;2;4;4;4m  ")]) ∧
    cacheGet [((5, 5, 5), "\x1b[48;2;4;4;4m  ")] (4, 4, 4) = none :=
  ⟨rfl, rfl⟩

/-- Claim C1 amended: both the cache lookup and the cache store in to_ansi
use the pre-quantization (post alpha-substitution) input color as the key;
quantization only affects the channel values embedded in the fragment. -/
theorem cache_key_prequant :
    (∀ (text : String) (r g b step : ℤ) (cache : Cache) (r2 g2 b2 : ℤ),
      round_rgb (r, g, b) step = .ok (r2, g2, b2) →
      cacheGet cache (r, g, b) = none →
      toAnsi text (r, g, b) none true (some step) cache =
        .ok (ansiFormat r2 g2 b2 text,
          cacheSet cache (r, g, b) (ansiFormat r2 g2 b2 text))) ∧
    (∀ (text : String) (rgb : RGBColor) (step : Option ℤ) (cache : Cache)
      (s : String), cacheGet cache rgb = some s →
      toAnsi text rgb none true step cache = .ok (s, cache)) := by
  constructor
  · intro text r g b step cache r2 g2 b2 hq hm
    simp [toAnsi, hm, hq]
  · intro text rgb step cache s hs
    simp [toAnsi, hs]

/-- Witness for the C1 amended theorem: color (5, 5, 5), step 4, empty
cache; the store key is (5, 5, 5). -/
theorem cache_key_prequant_witness :
    toAnsi ("Z") (5, 5, 5) none true (some 4) [] =
      .ok (ansiFormat 4 4 4 ("Z"), cacheSet [] (5, 5, 5) (ansiFormat 4 4 4 ("Z"))) :=
  cache_key_prequant.1 ("Z") 5 5 5 4 [] 4 4 4 rfl rfl

/-- Claim C5 refuted at a concrete input: (5, 5, 5) and (4, 4, 4) share the
post-quantization color (4, 4, 4) under step 4, yet a call with text A for
the first followed by a call with text B for the second returns two
different fragments, because the cache is keyed on the input color. -/
theorem same_postquant_fragments_cex :
    round_rgb (5, 5, 5) 4 = .ok (4, 4, 4) ∧
    round_rgb (4, 4, 4) 4 = .ok (4, 4, 4) ∧
    (toAnsi ("A") (5, 5, 5) none true (some 4) []).map Prod.fst =
      .ok ("\x1b[48;2;4;4;4mA") ∧
    (toAnsi ("B") (4, 4, 4) none true (some 4)
        [((5, 5, 5), "\x1b[48;2;4;4;4mA")]).map Prod.fst =
      .ok ("\x1b[48;2;4;4;4mB") ∧
    ("\x1b[48;2;4;4;4mA" : String) ≠ ("\x1b[48;2;4;4;4mB") :=
  ⟨rfl, rfl, rfl, rfl, by decide⟩

/-- Claim C5 amended: two use_cache calls with the same pre-quantization
(post alpha-substitution) input color and the same step return byte
identical fragments even when their texts differ: the second call hits the
cache entry keyed on the input color and leaves the cache unchanged. -/
theorem same_input_color_fragments (t1 t2 : String) (rgb : RGBColor)
    (step : Option ℤ) (cache : Cache) (s : String) (c2 : Cache)
    (h : toAnsi t1 rgb none true step cache = .ok (s, c2)) :
    toAnsi t2 rgb none true step c2 = .ok (s, c2) := by
  cases hx : cacheGet cache rgb with
  | some v =>
    simp [toAnsi, hx] at h
    obtain ⟨hsv, hcc⟩ := h
    subst hsv
    subst hcc
    simp [toAnsi, hx]
  | none =>
    simp [toAnsi, hx] at h
    cases hq : (match step with
      | none => Except.ok rgb
      | some st => round_rgb rgb st) with
    | error e =>
      rw [hq] at h
      simp at h
    | ok triple =>
      obtain ⟨r2, g2, b2⟩ := triple
      rw [hq] at h
      simp at h
      obtain ⟨hsv, hcc⟩ := h
      subst hsv
      subst hcc
      simp [toAnsi, cacheGet_cacheSet_self]

/-- Witness for the C5 amended theorem: second call with a different text
returns the cached fragment of the first call. -/
theorem same_input_color_fragments_witness :
    toAnsi ("B") (5, 5, 5) none true (some 4)
        [((5, 5, 5), "\x1b[48;2;4;4;4mA")] =
      .ok ("\x1b[48;2;4;4;4mA", [((5, 5, 5), "\x1b[48;2;4;4;4mA")]) :=
  same_input_color_fragments ("A") ("B") (5, 5, 5) (some 4) []
    ("\x1b[48;2;4;4;4mA") [((5, 5, 5), "\x1b[48;2;4;4;4mA")] rfl

/-- Claim C7: when alpha_replacer is supplied and the input color is
exactly (0, 0, 0), the replacer is substituted before the cache lookup,
quantization and formatting, so the call behaves exactly like a call on
the replacer color itself; a (0, 0, 0) input with replacer
(255, 255, 255) yields a pure white fragment. -/
theorem alpha_replacer_substitution :
    (∀ (text : String) (rep : RGBColor) (use_cache : Bool) (step : Option ℤ)
      (cache : Cache),
      toAnsi text (0, 0, 0) (some rep) use_cache step cache =
        toAnsi text rep none use_cache step cache) ∧
    (toAnsi ("  ") (0, 0, 0) (some (255, 255, 255)) true none []).map Prod.fst =
      .ok ("\x1b[48;2;255;255;255m  ") := by
  refine ⟨?_, rfl⟩
  intro text rep uc step cache
  simp [toAnsi]
/-- Claim C8: with show_pixel_index true the cell text computed for row i,
column j is the decimal representation of (i+1)*j followed by one space,
and with it false the cell text is two spaces; rendering a 2 by 1 image
(two distinctly colored pixels, so every cell is a cache miss) emits the
row 0 labels 0 and 1 in order. -/
theorem cell_text_formula :
    (∀ i j : ℕ, cellText true i j = toString ((i + 1) * j) ++ " ") ∧
    (∀ i j : ℕ, cellText false i j = "  ") ∧
    (from_image_file [[(1, 2, 3), (4, 5, 6)]] true none []).map Prod.fst =
      .ok ("\x1b[48;2;1;2;3m0 \x1b[48;2;4;5;6m1 \x1b[0m\n") ∧
    (from_image_file [[(1, 2, 3), (4, 5, 6)]] false none []).map Prod.fst =
      .ok ("\x1b[48;2;1;2;3m  \x1b[48;2;4;5;6m  \x1b[0m\n") :=
  ⟨fun _ _ => rfl, fun _ _ => rfl, rfl, rfl⟩

/-- Claim C9 refuted at a concrete input: rendering a 2 by 1 image whose
two pixels share the color (1, 2, 3) with show_pixel_index true reuses the
cached fragment of cell (0, 0) for cell (0, 1), so the second cell carries
the text 0 instead of its own cell text 1. -/
theorem cell_fragment_cached_text_cex :
    (from_image_file [[(1, 2, 3), (1, 2, 3)]] true none []).map Prod.fst =
      .ok ("\x1b[48;2;1;2;3m0 \x1b[48;2;1;2;3m0 \x1b[0m\n") ∧
    ("\x1b[48;2;1;2;3m0 \x1b[48;2;1;2;3m0 \x1b[0m\n" : String) ≠
      ("\x1b[48;2;1;2;3m0 \x1b[48;2;1;2;3m1 \x1b[0m\n") :=
  ⟨rfl, by decide⟩

/-- Claim C9 amended: the rendered string is exactly the row-major
concatenation of the per-cell fragments with one reset sequence plus
newline appended after each row; a cache-miss cell (shown unquantized) is
the escape sequence followed by its cell text with no per-cell reset,
while a cache-hit cell reuses the stored fragment verbatim, whose embedded
text is the one from the call that stored it. -/
theorem render_concat_structure :
    (∀ (pixels : List (List RGBColor)) (sp : Bool) (step : Option ℤ)
      (cache : Cache),
      from_image_file pixels sp step cache =
        (gridFragments 0 pixels sp step cache).map
          (fun p => (assembleRows p.1, p.2))) ∧
    (∀ (text : String) (r g b : ℤ) (cache : Cache),
      cacheGet cache (r, g, b) = none →
      (toAnsi text (r, g, b) none true none cache).map Prod.fst =
        .ok (ansiFormat r g b text)) ∧
    (∀ (text : String) (rgb : RGBColor) (step : Option ℤ) (cache : Cache)
      (s : String), cacheGet cache rgb = some s →
      toAnsi text rgb none true step cache = .ok (s, cache)) := by
  refine ⟨?_, ?_, ?_⟩
  · intro pixels sp step cache
    exact renderRows_eq_fragments pixels sp step 0 cache
  · intro text r g b cache hm
    simp [toAnsi, hm, Except.map]
  · intro text rgb step cache s hs
    simp [toAnsi, hs]

/-- Witness for the C9 amended theorem: a miss-cell fragment on the empty
cache and a hit-cell fragment on a one-entry cache. -/
theorem render_concat_structure_witness :
    (toAnsi ("0 ") (9, 9, 9) none true none []).map Prod.fst =
      .ok (ansiFormat 9 9 9 ("0 ")) ∧
    toAnsi ("1 ") (7, 7, 7) none true (some 4) [((7, 7, 7), "frag")] =
      .ok ("frag", [((7, 7, 7), "frag")]) :=
  ⟨render_concat_structure.2.1 ("0 ") 9 9 9 [] rfl,
   render_concat_structure.2.2 ("1 ") (7, 7, 7) (some 4)
     [((7, 7, 7), "frag")] ("frag") rfl⟩

/-- Claim C10: the rendering pipeline leaves alpha_replacer at its default
None, so from_image_file coincides with the replacer-exposed variant
applied to None, and a (0, 0, 0) pixel renders with a black background;
the white-substituted output that a replacer would produce is different
and unreachable through the pipeline. -/
theorem render_no_alpha_replacer :
    (∀ (pixels : List (List RGBColor)) (sp : Bool) (step : Option ℤ)
      (cache : Cache),
      from_image_file pixels sp step cache =
        fromImageFileR none pixels sp step cache) ∧
    (from_image_file [[(0, 0, 0)]] false none []).map Prod.fst =
      .ok ("\x1b[48;2;0;0;0m  \x1b[0m\n") ∧
    (fromImageFileR (some (255, 255, 255)) [[(0, 0, 0)]] false none
        []).map Prod.fst =
      .ok ("\x1b[48;2;255;255;255m  \x1b[0m\n") ∧
    ("\x1b[48;2;0;0;0m  \x1b[0m\n" : String) ≠
      ("\x1b[48;2;255;255;255m  \x1b[0m\n") := by
  refine ⟨?_, rfl, rfl, by decide⟩
  intro pixels sp step cache
  exact (renderRowsR_none pixels sp step 0 cache).symm

/-- Claim C2 at the failing input: scaling a 49 by 49 source to width 1
with proportion maintained returns (0, 0), not the claimed (1, 1), because
fator = 1/49 rounds below 1/49 in binary64, (1/49 as a float) * 49 rounds
to (2^53 - 1)/2^53 < 1, and int() truncates it to 0. -/
theorem resize_float_collapse :
    resize_in_proportion (49, 49) (some 1) none = .ok (0, 0) ∧
    ((0, 0) : ℤ × ℤ) ≠ (1, 1) :=
  ⟨by rfl, by decide⟩

/-- Claim C3 refuted at a concrete input: normalizing an explicit resize
pair whose two components are both unset with maintain_proportion true
delegates to resize_in_proportion with zero explicit dimensions, which
raises ValueError instead of succeeding with the source size. -/
theorem normalize_unset_pair_proportional_cex :
    normalize_resize (5, 7) (some (none, none)) true = .error .valueError :=
  rfl

/-- Claim C3 amended: an omitted resize argument is a no-op for either
value of maintain_proportion, and an explicit pair of two unset components
is a no-op only when maintain_proportion is false; when it is true,
normalization fails with ValueError from the proportional routine. -/
theorem normalize_unset_dims :
    (∀ (w h : ℤ) (mp : Bool), normalize_resize (w, h) none mp = .ok (w, h)) ∧
    (∀ w h : ℤ, normalize_resize (w, h) (some (none, none)) false = .ok (w, h)) ∧
    (∀ w h : ℤ,
      normalize_resize (w, h) (some (none, none)) true = .error .valueError) :=
  ⟨fun _ _ _ => rfl, fun _ _ => rfl, fun _ _ => rfl⟩

end PPixel
